import Mathlib

set_option autoImplicit false

/-!
Shallow embedding of the API-access core of the drug-delivery management
system: the request executor `api`, the `retry` wrapper (client.ts), and the
resource hooks / cache-invalidation layer (hooks.ts).  JavaScript objects are
modelled as association lists of string keys where a later entry shadows an
earlier one (the semantics of object-literal spread), numbers as `Int`,
and promise outcomes as explicit result values.
-/

namespace DrugDelivery

/-- Model of a JavaScript/JSON runtime value.  The `sig` constructor stands
for an opaque `AbortSignal` token, identified by the numeric id of the
controller that produced it. -/
inductive JsVal where
  | str : String → JsVal
  | num : Int → JsVal
  | bool : Bool → JsVal
  | null : JsVal
  | obj : List (String × JsVal) → JsVal
  | arr : List JsVal → JsVal
  | sig : Nat → JsVal

/-- Property lookup on the entry list of a JavaScript object.  A later entry
shadows an earlier one, matching the last-assignment-wins semantics of
object literals built with spreads. -/
def objLookup : List (String × JsVal) → String → Option JsVal
  | [], _ => none
  | (k, v) :: rest, key =>
    match objLookup rest key with
    | some r => some r
    | none => if k = key then some v else none

/-- Entry list of a value when it is an object; property access on any
non-object primitive yields no entries (every lookup is `undefined`). -/
def objEntries : JsVal → List (String × JsVal)
  | JsVal.obj fs => fs
  | _ => []

/-- JavaScript truthiness of a value. -/
def truthy : JsVal → Bool
  | JsVal.str s => !s.isEmpty
  | JsVal.num n => n != 0
  | JsVal.bool b => b
  | JsVal.null => false
  | JsVal.obj _ => true
  | JsVal.arr _ => true
  | JsVal.sig _ => true

/-- Model of `x || d` applied to a possibly-undefined value `x`: the value
itself when present and truthy, otherwise the default. -/
def jsOr (x : Option JsVal) (d : JsVal) : JsVal :=
  match x with
  | some v => if truthy v then v else d
  | none => d

mutual

/-- Model of `JSON.stringify` (escaping of special characters inside string
data is not modelled; none of the verified inputs contain any). -/
def stringify : JsVal → String
  | JsVal.str s => "\"" ++ s ++ "\""
  | JsVal.num n => toString n
  | JsVal.bool b => if b then "true" else "false"
  | JsVal.null => "null"
  | JsVal.obj fs => "\x7b" ++ stringifyFields fs ++ "\x7d"
  | JsVal.arr xs => "[" ++ stringifyElems xs ++ "]"
  | JsVal.sig _ => "\x7b\x7d"

/-- Comma-separated serialization of object fields. -/
def stringifyFields : List (String × JsVal) → String
  | [] => ""
  | [(k, v)] => "\"" ++ k ++ "\":" ++ stringify v
  | (k, v) :: rest => "\"" ++ k ++ "\":" ++ stringify v ++ "," ++ stringifyFields rest

/-- Comma-separated serialization of array elements. -/
def stringifyElems : List JsVal → String
  | [] => ""
  | [v] => stringify v
  | v :: rest => stringify v ++ "," ++ stringifyElems rest

end

mutual

/-- Model of the implicit `String(x)` coercion JavaScript applies when a
value is used as an error message. -/
def jsToString : JsVal → String
  | JsVal.str s => s
  | JsVal.num n => toString n
  | JsVal.bool b => if b then "true" else "false"
  | JsVal.null => "null"
  | JsVal.obj _ => "[object Object]"
  | JsVal.arr xs => jsToStringElems xs
  | JsVal.sig _ => "[object AbortSignal]"

/-- Array-to-string coercion: elements joined by commas. -/
def jsToStringElems : List JsVal → String
  | [] => ""
  | [v] => jsToString v
  | v :: rest => jsToString v ++ "," ++ jsToStringElems rest

end

/-- URL resolution from `api`:
`path.startsWith('http') ? path : '/api' + path`. -/
def requestUrl (path : String) : String :=
  if path.startsWith "http" then path else "/api" ++ path

/-- The header object literal built by `api`:
`{ 'Content-Type': 'application/json', ...(options.headers || \x7b\x7d) }`. -/
def mergedHeaders (options : List (String × JsVal)) : JsVal :=
  JsVal.obj (("Content-Type", JsVal.str "application/json") ::
    objEntries (jsOr (objLookup options "headers") (JsVal.obj [])))

/-- The full init object passed to `fetch` by `api`:
`{ headers: mergedHeaders, signal: controller.signal, ...options }`.
The trailing spread of `options` comes last, so any `headers` or `signal`
entry of `options` shadows the two defaults. -/
def fetchInit (options : List (String × JsVal)) (ownSignal : Nat) : List (String × JsVal) :=
  [("headers", mergedHeaders options), ("signal", JsVal.sig ownSignal)] ++ options

/-- Entry list of the headers object of a fetch init. -/
def requestHeaders (init : List (String × JsVal)) : List (String × JsVal) :=
  objEntries ((objLookup init "headers").getD (JsVal.obj []))

/-- Value of one named header of the issued request. -/
def requestHeader (init : List (String × JsVal)) (name : String) : Option JsVal :=
  objLookup (requestHeaders init) name

/-- Model of the `fetch` response as observed by `api`.  `jsonBody` is the
result of attempting to parse the body as JSON (`none` when `res.json()`
would reject); `bodyText` is what `res.text()` yields. -/
structure Response where
  status : Nat
  statusText : String
  contentType : Option String
  jsonBody : Option JsVal
  bodyText : String

/-- Model of `res.ok`: status in the inclusive range 200..299. -/
def resOk (r : Response) : Bool :=
  200 ≤ r.status && r.status ≤ 299

/-- The error value thrown by `api` on a non-success status carries a message
and the numeric status (`Object.assign(new Error(msg), \x7b status: res.status \x7d)`). -/
structure ApiError where
  message : String
  status : Option Nat
deriving DecidableEq, Repr

/-- The message computed for a non-success response:
`try \x7b data = await res.json(); msg = data.detail || JSON.stringify(data) \x7d catch \x7b msg = res.statusText \x7d`.
When the body fails to parse, the catch arm yields `statusText`; when it
parses to `null`, the property access `data.detail` faults and the same
catch arm also yields `statusText`. -/
def errorMessage (res : Response) : String :=
  match res.jsonBody with
  | some JsVal.null => res.statusText
  | some data =>
    jsToString (jsOr (objLookup (objEntries data) "detail") (JsVal.str (stringify data)))
  | none => res.statusText

/-- The normalized error produced for a non-success response. -/
def apiErrorOf (res : Response) : ApiError :=
  { message := errorMessage res, status := some res.status }

/-- Whether the first character list is an initial segment of the second. -/
def charsLeadWith : List Char → List Char → Bool
  | [], _ => true
  | _ :: _, [] => false
  | p :: ps, c :: cs => if p = c then charsLeadWith ps cs else false

/-- Whether the first character list occurs contiguously in the second. -/
def charsInclude (pat : List Char) : List Char → Bool
  | [] => pat.isEmpty
  | c :: cs => charsLeadWith pat (c :: cs) || charsInclude pat cs

/-- Model of `String.prototype.includes`: substring containment. -/
def strIncludes (s pat : String) : Bool :=
  charsInclude pat.data s.data

/-- The body decoded by `api` on a success status. -/
inductive DecodedBody where
  | noContent : DecodedBody
  | json : JsVal → DecodedBody
  | text : String → DecodedBody

/-- Settled outcome of one `api` call. -/
inductive ApiOutcome where
  | success : DecodedBody → ApiOutcome
  | httpError : ApiError → ApiOutcome
  | decodeError : ApiOutcome
  | networkFailure : ApiOutcome

/-- The response-handling block of `api`, translated arm by arm:
non-success throws the normalized error; 204 returns no value; a
content-type not containing `application/json` returns the text body;
otherwise the JSON-parsed body is returned (rejecting when parsing fails). -/
def handleResponse (res : Response) : ApiOutcome :=
  if !resOk res then
    ApiOutcome.httpError (apiErrorOf res)
  else if res.status = 204 then
    ApiOutcome.success DecodedBody.noContent
  else
    if !strIncludes (res.contentType.getD "") "application/json" then
      ApiOutcome.success (DecodedBody.text res.bodyText)
    else
      match res.jsonBody with
      | some v => ApiOutcome.success (DecodedBody.json v)
      | none => ApiOutcome.decodeError

/-- Result of the awaited `fetch` itself: a response, or a network-level
rejection (connection failure or abort). -/
inductive FetchOutcome where
  | ok : Response → FetchOutcome
  | networkError : FetchOutcome

/-- The try-block body of `api` after the fetch settles. -/
def tryBody : FetchOutcome → ApiOutcome
  | FetchOutcome.ok res => handleResponse res
  | FetchOutcome.networkError => ApiOutcome.networkFailure

/-- Scheduling a timeout appends its id to the pending-timer list. -/
def jsSetTimeout (timers : List Nat) (id : Nat) : List Nat :=
  timers ++ [id]

/-- Clearing a timeout removes its id from the pending-timer list. -/
def jsClearTimeout (timers : List Nat) (id : Nat) : List Nat :=
  timers.filter (fun t => t ≠ id)

/-- Everything observable about one run of `api`: the fetch init object and
url it issued, the settled outcome, and the pending timers left behind. -/
structure ApiCallResult where
  request : List (String × JsVal)
  url : String
  outcome : ApiOutcome
  pendingTimers : List Nat

/-- One full run of `api` over a given fetch result: the timer is scheduled
at entry, the try block settles to an outcome on one of its four exit paths
(success, HTTP failure, decode failure, network failure), and the `finally`
clause clears the timer unconditionally before the call completes. -/
def apiCall (path : String) (options : List (String × JsVal)) (timerId : Nat)
    (fetchResult : FetchOutcome) (timers : List Nat) : ApiCallResult :=
  let t1 := jsSetTimeout timers timerId
  let outcome := tryBody fetchResult
  let t2 := jsClearTimeout t1 timerId
  { request := fetchInit options timerId
    url := requestUrl path
    outcome := outcome
    pendingTimers := t2 }

/-- Observable trace of one `retry` run: the settled result (`Except.error
none` models throwing the still-undefined `lastErr`), the number of times
the wrapped operation was invoked, and the backoff waits performed in
order. -/
structure RetryTrace (ε α : Type) where
  result : Except (Option ε) α
  calls : Nat
  delays : List Nat

/-- The loop of `retry`: `fn i` is the outcome of the `i`-th invocation
(0-based) of the wrapped operation, `rem` the remaining iterations of
`for(let i=0;i<attempts;i++)`.  On failure the loop records the error and
waits `baseDelay * (i + 1)` before re-testing the loop condition. -/
def retryLoop {ε α : Type} (fn : Nat → Except ε α) (baseDelay : Nat) :
    Nat → Nat → Option ε → RetryTrace ε α
  | _, 0, lastErr => { result := Except.error lastErr, calls := 0, delays := [] }
  | i, rem + 1, _ =>
    match fn i with
    | Except.ok v => { result := Except.ok v, calls := 1, delays := [] }
    | Except.error e =>
      let rest := retryLoop fn baseDelay (i + 1) rem (some e)
      { result := rest.result
        calls := rest.calls + 1
        delays := baseDelay * (i + 1) :: rest.delays }

/-- Model of `retry(fn, attempts, baseDelay)`.  `attempts` is an `Int`
because the JavaScript loop `for(let i=0;i<attempts;i++)` runs zero times
for any non-positive bound. -/
def retry {ε α : Type} (fn : Nat → Except ε α) (attempts : Int := 3)
    (baseDelay : Nat := 300) : RetryTrace ε α :=
  retryLoop fn baseDelay 0 attempts.toNat none

/-- One component of a query cache key: the source keys mix strings and
numbers (the transactions limit, the patient id) and may hold `undefined`. -/
inductive KeyPart where
  | str : String → KeyPart
  | num : Int → KeyPart
  | undef : KeyPart
deriving DecidableEq, Repr

/-- A cache key is the list of its components. -/
abbrev QueryKey := List KeyPart

namespace keys

/-- Key `['patients']`. -/
def patients : QueryKey := [KeyPart.str "patients"]

/-- Key `['drugs']`. -/
def drugs : QueryKey := [KeyPart.str "drugs"]

/-- Key `['deliveries']`. -/
def deliveries : QueryKey := [KeyPart.str "deliveries"]

/-- Key `['stats']`. -/
def stats : QueryKey := [KeyPart.str "stats"]

/-- Key `['inventory']` (the inventory-drugs read). -/
def inventory : QueryKey := [KeyPart.str "inventory"]

/-- Key `['inventory','summary']`. -/
def inventorySummary : QueryKey := [KeyPart.str "inventory", KeyPart.str "summary"]

/-- Key `['inventory','transactions']`. -/
def inventoryTransactions : QueryKey := [KeyPart.str "inventory", KeyPart.str "transactions"]

end keys

/-- Syntax of the effect expression a hook hands to the query library as its
query or mutation function: a single request-executor call, a
retry-wrapped expression, or the immediately resolved empty list
`Promise.resolve([])`. -/
inductive Eff where
  | api : String → List (String × JsVal) → Eff
  | retry : Eff → Eff
  | resolvedEmpty : Eff

/-- Whether an effect expression routes through the retry wrapper. -/
def Eff.usesRetry : Eff → Bool
  | Eff.retry _ => true
  | Eff.api _ _ => false
  | Eff.resolvedEmpty => false

/-- Whether an effect expression is exactly one bare request-executor call
(so per invocation it issues exactly one request and propagates its
failure unchanged). -/
def Eff.isSingleApiCall : Eff → Bool
  | Eff.api _ _ => true
  | _ => false

/-- The pair a read hook passes to `useQuery`: its cache key, its query
function, and the `enabled` flag (defaulting to enabled, as in the query
library). -/
structure QueryDef where
  queryKey : QueryKey
  queryFn : Eff
  enabled : Bool := true

/-- Hook `usePatients`. -/
def usePatients : QueryDef :=
  { queryKey := keys.patients, queryFn := Eff.retry (Eff.api "/patients" []) }

/-- Hook `useDrugs`. -/
def useDrugs : QueryDef :=
  { queryKey := keys.drugs, queryFn := Eff.retry (Eff.api "/drugs" []) }

/-- Hook `useDeliveries`. -/
def useDeliveries : QueryDef :=
  { queryKey := keys.deliveries, queryFn := Eff.retry (Eff.api "/deliveries" []) }

/-- Hook `useStats`. -/
def useStats : QueryDef :=
  { queryKey := keys.stats, queryFn := Eff.api "/stats" [] }

/-- Hook `useInventoryDrugs`. -/
def useInventoryDrugs : QueryDef :=
  { queryKey := keys.inventory, queryFn := Eff.retry (Eff.api "/drugs" []) }

/-- Hook `useInventorySummary`. -/
def useInventorySummary : QueryDef :=
  { queryKey := keys.inventorySummary, queryFn := Eff.api "/inventory/summary" [] }

/-- Hook `useInventoryTransactions`. -/
def useInventoryTransactions (limit : Int := 200) : QueryDef :=
  { queryKey := keys.inventoryTransactions ++ [KeyPart.num limit]
    queryFn := Eff.api ("/inventory/transactions?limit=" ++ toString limit) [] }

/-- Key component for a possibly-undefined patient id. -/
def keyOfOptInt : Option Int → KeyPart
  | some n => KeyPart.num n
  | none => KeyPart.undef

/-- JavaScript truthiness of a possibly-undefined number (`undefined` and
`0` are falsy). -/
def optIntTruthy : Option Int → Bool
  | some n => n != 0
  | none => false

/-- The conditional query function of `usePatientDeliveries`:
`patientId ? api(...) : Promise.resolve([])`. -/
def usePatientDeliveries_queryFn (patientId : Option Int) : Eff :=
  if optIntTruthy patientId then
    Eff.api ("/deliveries/patient/" ++ toString ((patientId.getD 0))) []
  else Eff.resolvedEmpty

/-- Hook `usePatientDeliveries`, with key `['patient-deliveries', patientId]`
and `enabled: !!patientId`. -/
def usePatientDeliveries (patientId : Option Int) : QueryDef :=
  { queryKey := [KeyPart.str "patient-deliveries", keyOfOptInt patientId]
    queryFn := usePatientDeliveries_queryFn patientId
    enabled := optIntTruthy patientId }

/-- The pair a write hook passes to `useMutation`: the mutation function and
the list of key filters its `onSuccess` callback invalidates, in order. -/
structure MutationDef (α : Type) where
  mutationFn : α → Eff
  onSuccessInvalidate : List QueryKey

/-- Hook `useAddPatient`. -/
def useAddPatient : MutationDef JsVal :=
  { mutationFn := fun data =>
      Eff.api "/patients" [("method", JsVal.str "POST"), ("body", JsVal.str (stringify data))]
    onSuccessInvalidate := [keys.patients] }

/-- Hook `useAddDrug`. -/
def useAddDrug : MutationDef JsVal :=
  { mutationFn := fun data =>
      Eff.api "/drugs" [("method", JsVal.str "POST"), ("body", JsVal.str (stringify data))]
    onSuccessInvalidate := [keys.drugs] }

/-- Hook `useAddDelivery`. -/
def useAddDelivery : MutationDef JsVal :=
  { mutationFn := fun data =>
      Eff.api "/deliveries" [("method", JsVal.str "POST"), ("body", JsVal.str (stringify data))]
    onSuccessInvalidate := [keys.deliveries] }

/-- Hook `useUpdateDeliveryStatus`; the argument is the `(id, status)` pair. -/
def useUpdateDeliveryStatus : MutationDef (Int × String) :=
  { mutationFn := fun p =>
      Eff.api ("/deliveries/" ++ toString p.1 ++ "/status")
        [("method", JsVal.str "PATCH"),
         ("body", JsVal.str (stringify (JsVal.obj [("status", JsVal.str p.2)])))]
    onSuccessInvalidate := [keys.deliveries] }

/-- Argument record of `useAdjustInventory`. -/
structure AdjustArgs where
  drug_id : Int
  delta : Int
  reason : Option String

/-- The body object `\x7b drug_id, delta, reason \x7d`; `JSON.stringify`
omits a field whose value is `undefined`. -/
def adjustBody (a : AdjustArgs) : JsVal :=
  JsVal.obj ([("drug_id", JsVal.num a.drug_id), ("delta", JsVal.num a.delta)] ++
    (match a.reason with
     | some r => [("reason", JsVal.str r)]
     | none => []))

/-- Hook `useAdjustInventory`: one POST to `/inventory/adjust`; on success
it invalidates the inventory, inventory-summary and inventory-transactions
keys, in that order. -/
def useAdjustInventory : MutationDef AdjustArgs :=
  { mutationFn := fun a =>
      Eff.api "/inventory/adjust"
        [("method", JsVal.str "POST"), ("body", JsVal.str (stringify (adjustBody a)))]
    onSuccessInvalidate := [keys.inventory, keys.inventorySummary, keys.inventoryTransactions] }

/-- One cached read: whether it is marked stale, and the logical time at
which its current data was computed. -/
structure CacheEntry where
  stale : Bool
  fetchedAt : Nat
deriving DecidableEq, Repr

/-- The query cache: cached reads indexed by their keys. -/
abbrev Cache := List (QueryKey × CacheEntry)

/-- Key-filter matching of the query library: a filter matches every cached
query whose key extends it componentwise (so the filter `['inventory']`
also matches `['inventory','summary']` and
`['inventory','transactions', limit]`). -/
def keyMatches : QueryKey → QueryKey → Bool
  | [], _ => true
  | _ :: _, [] => false
  | p :: ps, k :: ks => if p = k then keyMatches ps ks else false

/-- Modelled from the spec (glossary: invalidate means mark cached data for
a key as stale, triggering a refetch on next read): `invalidateQueries`
marks every cached entry matched by the filter as stale. -/
def invalidateQueries (filter : QueryKey) : Cache → Cache
  | [] => []
  | (k, e) :: rest =>
    (k, if keyMatches filter k then { e with stale := true } else e) ::
      invalidateQueries filter rest

/-- Lookup of a cached entry by its exact key. -/
def cacheFind (k : QueryKey) : Cache → Option CacheEntry
  | [] => none
  | (k', e) :: rest => if k' = k then some e else cacheFind k rest

/-- Store (replace or append) a cached entry. -/
def cacheStore (k : QueryKey) (e : CacheEntry) : Cache → Cache
  | [] => [(k, e)]
  | (k', e') :: rest =>
    if k' = k then (k, e) :: rest else (k', e') :: cacheStore k e rest

/-- Modelled from the spec (glossary): a read of a key returns the cached
data when present and not stale, and otherwise refetches, returning data
computed at the time of the read.  The first component is the computation
time of the returned value. -/
def readQuery (qc : Cache) (k : QueryKey) (now : Nat) : Nat × Cache :=
  match cacheFind k qc with
  | some e =>
    if e.stale then (now, cacheStore k { stale := false, fetchedAt := now } qc)
    else (e.fetchedAt, qc)
  | none => (now, cacheStore k { stale := false, fetchedAt := now } qc)

/-- Effect of one settled mutation on the cache: the `onSuccess` callback
(which performs the invalidations, in order) runs only when the write
request resolved successfully; any failure leaves the cache untouched. -/
def runMutation {α : Type} (m : MutationDef α) (outcome : ApiOutcome) (qc : Cache) : Cache :=
  match outcome with
  | ApiOutcome.success _ =>
    m.onSuccessInvalidate.foldl (fun c f => invalidateQueries f c) qc
  | _ => qc

/-- Record of the `Drug` interface. -/
structure Drug where
  id : Int
  name : String
  dosage : Option String := none
  stock : Option Int := none
  reorder_level : Option Int := none
deriving DecidableEq, Repr

/-- Record of the `InventorySummary` interface. -/
structure InventorySummary where
  id : Int
  pending_quantity : Option Int := none
  daily_avg : Option Int := none
  days_supply : Option Int := none
deriving DecidableEq, Repr

/-- Record of the `InventoryMerged` interface (all fields of `Drug` and of
`InventorySummary`). -/
structure InventoryMerged where
  id : Int
  name : String
  dosage : Option String := none
  stock : Option Int := none
  reorder_level : Option Int := none
  pending_quantity : Option Int := none
  daily_avg : Option Int := none
  days_supply : Option Int := none
deriving DecidableEq, Repr

/-- Lookup in `new Map(summary.map(s => [s.id, s]))`: the Map constructor
lets a later entry with the same key overwrite an earlier one, so the last
matching summary wins. -/
def summaryMapGet : List InventorySummary → Int → Option InventorySummary
  | [], _ => none
  | s :: rest, i =>
    match summaryMapGet rest i with
    | some r => some r
    | none => if s.id = i then some s else none

/-- The spread `\x7b ...d, ...s \x7d` for a drug and its matching summary:
the only field both records declare is `id`, which the summary (spread
last) supplies; every summary field overlays the result. -/
def overlay (d : Drug) (s : InventorySummary) : InventoryMerged :=
  { id := s.id
    name := d.name
    dosage := d.dosage
    stock := d.stock
    reorder_level := d.reorder_level
    pending_quantity := s.pending_quantity
    daily_avg := s.daily_avg
    days_supply := s.days_supply }

/-- The spread `\x7b ...d, ...\x7b\x7d \x7d` for a drug with no matching
summary: the drug passes through with no summary fields. -/
def plainMerged (d : Drug) : InventoryMerged :=
  { id := d.id
    name := d.name
    dosage := d.dosage
    stock := d.stock
    reorder_level := d.reorder_level }

/-- `mergeInventory(drugs?, summary?)` from hooks.ts: an absent drug list
yields `[]`; otherwise each drug is overlaid with the summary retrieved
from the Map (or with nothing when the Map misses). -/
def mergeInventory (drugs : Option (List Drug)) (summary : Option (List InventorySummary)) :
    List InventoryMerged :=
  match drugs with
  | none => []
  | some ds =>
    ds.map (fun d =>
      match summaryMapGet (summary.getD []) d.id with
      | some s => overlay d s
      | none => plainMerged d)

/-- Caller options whose headers carry only `X-Foo: bar` and no
`Content-Type`, the failing input for the header-merging claim. -/
def headersOnlyXFoo : List (String × JsVal) :=
  [("headers", JsVal.obj [("X-Foo", JsVal.str "bar")])]

/-- A 500 response whose body is valid JSON without a `detail` field. -/
def detailLessRes : Response :=
  { status := 500
    statusText := "Internal Server Error"
    contentType := some "application/json"
    jsonBody := some (JsVal.obj [("foo", JsVal.num 1)])
    bodyText := "\x7b\"foo\":1\x7d" }

/-- A 404 response whose JSON body carries a `detail` message. -/
def detailRes : Response :=
  { status := 404
    statusText := "Not Found"
    contentType := some "application/json"
    jsonBody := some (JsVal.obj [("detail", JsVal.str "Patient not found")])
    bodyText := "\x7b\"detail\":\"Patient not found\"\x7d" }

/-- A 204 response with a JSON content-type and no body. -/
def noContentRes : Response :=
  { status := 204
    statusText := "No Content"
    contentType := some "application/json"
    jsonBody := none
    bodyText := "" }

/-- A 200 response with a JSON content-type and a parsed JSON body. -/
def jsonRes : Response :=
  { status := 200
    statusText := "OK"
    contentType := some "application/json; charset=utf-8"
    jsonBody := some (JsVal.arr [JsVal.num 1, JsVal.num 2])
    bodyText := "[1,2]" }

/-- A 200 response with a plain-text content-type. -/
def textRes : Response :=
  { status := 200
    statusText := "OK"
    contentType := some "text/plain"
    jsonBody := none
    bodyText := "pong" }

/-- An operation that fails on its first two invocations (errors 0 and 1)
and succeeds with 99 on the third. -/
def retryDemoOp : Nat → Except Nat Nat :=
  fun k => if k = 2 then Except.ok 99 else Except.error k

/-- An operation that fails on every invocation, with the invocation index
as the error. -/
def retryDemoFail : Nat → Except Nat Nat :=
  fun k => Except.error k

/-- A cache holding fresh (non-stale) entries for the three inventory reads
and for the patients read, all computed at time 0. -/
def demoCache : Cache :=
  [(keys.inventory, { stale := false, fetchedAt := 0 }),
   (keys.inventorySummary, { stale := false, fetchedAt := 0 }),
   (keys.inventoryTransactions ++ [KeyPart.num 200], { stale := false, fetchedAt := 0 }),
   (keys.patients, { stale := false, fetchedAt := 0 })]

theorem objLookup_append (a b : List (String × JsVal)) (key : String) :
    objLookup (a ++ b) key =
      match objLookup b key with
      | some r => some r
      | none => objLookup a key := by
  induction a with
  | nil =>
    simp only [List.nil_append]
    cases h : objLookup b key <;> simp [h, objLookup]
  | cons p rest ih =>
    obtain ⟨k, v⟩ := p
    simp only [List.cons_append, objLookup]
    rw [List.append_eq, ih]
    cases h : objLookup b key <;> simp [h]

/-- C1: the claim reads the issued request headers as the default
`Content-Type: application/json` merged with the caller headers (caller
overrides winning), bound to the cancellation signal of the executor.  The
trailing `...options` spread in the source instead replaces the merged
headers object wholesale whenever the caller supplies any `headers`, so
with caller headers `\x7b X-Foo: bar \x7d` the issued request carries no
`Content-Type` at all — while with no caller headers the default is
present.  This evaluates the translated request construction at that
failing input. -/
theorem fetchInit_headers_bug :
    requestHeader (fetchInit [] 0) "Content-Type" = some (JsVal.str "application/json")
    ∧ requestHeader (fetchInit headersOnlyXFoo 0) "Content-Type" = none
    ∧ requestHeader (fetchInit headersOnlyXFoo 0) "X-Foo" = some (JsVal.str "bar")
    ∧ objLookup (fetchInit headersOnlyXFoo 0) "signal" = some (JsVal.sig 0) :=
  ⟨rfl, rfl, rfl, rfl⟩

/-- C6: on every exit path of the request executor — success, decode
failure, HTTP failure, or network failure (the four cases of `tryBody`
over an arbitrary fetch result) — the timer scheduled at entry has been
cleared when the call completes, whatever timers were already pending. -/
theorem api_timer_always_cleared (path : String) (options : List (String × JsVal))
    (timerId : Nat) (fetchResult : FetchOutcome) (timers : List Nat) :
    timerId ∉ (apiCall path options timerId fetchResult timers).pendingTimers := by
  simp [apiCall, jsClearTimeout, jsSetTimeout, List.mem_filter]

/-- C10: with a non-positive attempt budget the loop body never runs, so the
wrapped operation is never invoked (zero calls) and the wrapper throws the
still-undefined `lastErr` (modelled as `Except.error none`). -/
theorem retry_nonpositive_attempts {ε α : Type} (fn : Nat → Except ε α) (attempts : Int)
    (baseDelay : Nat) (h : attempts ≤ 0) :
    retry fn attempts baseDelay =
      { result := Except.error none, calls := 0, delays := [] } := by
  have h0 : attempts.toNat = 0 := Int.toNat_of_nonpos h
  simp [retry, h0, retryLoop]

/-- Witness for C10 at attempts = -2: an operation that would succeed is
never invoked and the wrapper rejects with the undefined error value. -/
theorem retry_nonpositive_attempts_witness :
    retry (fun k => (Except.ok k : Except Nat Nat)) (-2) 300 =
      { result := Except.error none, calls := 0, delays := [] } :=
  retry_nonpositive_attempts _ (-2) 300 (by decide)

theorem retryLoop_success {ε α : Type} (fn : Nat → Except ε α) (d : Nat) :
    ∀ (k i rem : Nat) (last : Option ε) (v : α), k < rem →
      fn (i + k) = Except.ok v →
      (∀ j, j < k → ∃ e, fn (i + j) = Except.error e) →
      retryLoop fn d i rem last =
        { result := Except.ok v
          calls := k + 1
          delays := (List.range' (i + 1) k).map (fun m => d * m) } := by
  intro k
  induction k with
  | zero =>
    intro i rem last v hk hok _
    obtain ⟨rem', rfl⟩ : ∃ rem', rem = rem' + 1 := ⟨rem - 1, by omega⟩
    simp only [Nat.add_zero] at hok
    simp [retryLoop, hok]
  | succ k ih =>
    intro i rem last v hk hok hfail
    obtain ⟨rem', rfl⟩ : ∃ rem', rem = rem' + 1 := ⟨rem - 1, by omega⟩
    obtain ⟨e, he⟩ := hfail 0 (Nat.succ_pos k)
    simp only [Nat.add_zero] at he
    have hok' : fn (i + 1 + k) = Except.ok v := by
      rw [show i + 1 + k = i + (k + 1) by omega]
      exact hok
    have hfail' : ∀ j, j < k → ∃ e', fn (i + 1 + j) = Except.error e' := by
      intro j hj
      obtain ⟨e', he'⟩ := hfail (j + 1) (by omega)
      refine ⟨e', ?_⟩
      rw [show i + 1 + j = i + (j + 1) by omega]
      exact he'
    have hrest := ih (i + 1) rem' (some e) v (by omega) hok' hfail'
    simp [retryLoop, he, hrest, List.range'_succ]

theorem retryLoop_allFail {ε α : Type} (fn : Nat → Except ε α) (d : Nat) :
    ∀ (rem i : Nat) (last : Option ε) (e : ε), 0 < rem →
      fn (i + rem - 1) = Except.error e →
      (∀ j, j < rem → ∃ e', fn (i + j) = Except.error e') →
      (retryLoop fn d i rem last).result = Except.error (some e) := by
  intro rem
  induction rem with
  | zero =>
    intro i last e h
    exact absurd h (by omega)
  | succ rem' ih =>
    intro i last e _ hlast hfail
    obtain ⟨e0, he0⟩ := hfail 0 (Nat.succ_pos rem')
    simp only [Nat.add_zero] at he0
    by_cases hr : rem' = 0
    · subst hr
      rw [show i + 1 - 1 = i by omega] at hlast
      rw [hlast] at he0
      cases he0
      simp [retryLoop, hlast]
    · have hfail' : ∀ j, j < rem' → ∃ e', fn (i + 1 + j) = Except.error e' := by
        intro j hj
        obtain ⟨e', he'⟩ := hfail (j + 1) (by omega)
        refine ⟨e', ?_⟩
        rw [show i + 1 + j = i + (j + 1) by omega]
        exact he'
      have hlast' : fn (i + 1 + rem' - 1) = Except.error e := by
        rw [show i + 1 + rem' - 1 = i + (rem' + 1) - 1 by omega]
        exact hlast
      simp only [retryLoop, he0]
      exact ih (i + 1) (some e0) e (by omega) hlast' hfail'

/-- C4: for any operation, attempt budget and base delay, the retry wrapper
returns the result of the first attempt that succeeds, having invoked the
operation exactly once per attempt up to that success; the wait after the
failure of 1-based attempt `n` is `baseDelay * n` (the recorded backoff
trace is `[baseDelay * 1, ..., baseDelay * k]` when attempt `k + 1`
succeeds); and when all attempts fail, the wrapper rejects with the failure
of the last attempt. -/
theorem retry_spec {ε α : Type} (fn : Nat → Except ε α) (attempts : Nat) (d : Nat) :
    (∀ (k : Nat) (v : α), k < attempts → fn k = Except.ok v →
        (∀ j, j < k → ∃ e, fn j = Except.error e) →
        retry fn (attempts : Int) d =
          { result := Except.ok v
            calls := k + 1
            delays := (List.range' 1 k).map (fun m => d * m) })
    ∧ (∀ e : ε, 0 < attempts → fn (attempts - 1) = Except.error e →
        (∀ j, j < attempts → ∃ e', fn j = Except.error e') →
        (retry fn (attempts : Int) d).result = Except.error (some e)) := by
  constructor
  · intro k v hk hok hfail
    have h := retryLoop_success fn d k 0 attempts none v hk (by simpa using hok)
      (by simpa using hfail)
    simpa [retry, Int.toNat_natCast] using h
  · intro e hpos hlast hfail
    have h := retryLoop_allFail fn d attempts 0 none e hpos (by simpa using hlast)
      (by simpa using hfail)
    simpa [retry, Int.toNat_natCast] using h

/-- Witness for C4: an operation failing twice then succeeding with budget 3
yields the success after three invocations with backoff waits 300 and 600;
an operation that always fails rejects with the failure of the third (last)
attempt, error 2, not an earlier one. -/
theorem retry_spec_witness :
    retry retryDemoOp 3 300 = { result := Except.ok 99, calls := 3, delays := [300, 600] }
    ∧ (retry retryDemoFail 3 300).result = Except.error (some 2) := by
  constructor
  · have hfail : ∀ j, j < 2 → ∃ e, retryDemoOp j = Except.error e := by
      intro j hj
      exact ⟨j, by interval_cases j <;> rfl⟩
    exact (retry_spec retryDemoOp 3 300).1 2 99 (by decide) rfl hfail
  · have hfail : ∀ j, j < 3 → ∃ e, retryDemoFail j = Except.error e := fun j _ => ⟨j, rfl⟩
    exact (retry_spec retryDemoFail 3 300).2 2 (by decide) rfl hfail

/-- Counterexample to C2 as stated: for the 500 response whose body is the
valid JSON object `\x7b"foo":1\x7d` with no `detail` field, the claim says
the message equals the reason phrase `Internal Server Error`, but the code
computes `JSON.stringify(data)`. -/
theorem apiError_message_counterexample :
    resOk detailLessRes = false
    ∧ detailLessRes.jsonBody = some (JsVal.obj [("foo", JsVal.num 1)])
    ∧ objLookup (objEntries (JsVal.obj [("foo", JsVal.num 1)])) "detail" = none
    ∧ (apiErrorOf detailLessRes).message = "\x7b\"foo\":1\x7d"
    ∧ (apiErrorOf detailLessRes).message ≠ detailLessRes.statusText := by
  refine ⟨rfl, rfl, rfl, rfl, ?_⟩
  decide

/-- C2 (amended): for every non-success response the executor rejects with
the normalized error, whose status equals the numeric HTTP status; its
message equals the `detail` field when the body parses as JSON (not to
`null`) with a truthy `detail` property, equals the JSON serialization of
the parsed body when that parse yields no truthy `detail`, and equals the
reason phrase (statusText) when the body does not parse as JSON or parses
to `null` (whose property access faults into the same fallback). -/
theorem apiError_spec (res : Response) (h : resOk res = false) :
    handleResponse res = ApiOutcome.httpError (apiErrorOf res)
    ∧ (apiErrorOf res).status = some res.status
    ∧ (∀ data d, res.jsonBody = some data → data ≠ JsVal.null →
        objLookup (objEntries data) "detail" = some d → truthy d = true →
        (apiErrorOf res).message = jsToString d)
    ∧ (∀ data, res.jsonBody = some data → data ≠ JsVal.null →
        (objLookup (objEntries data) "detail" = none
          ∨ ∃ d, objLookup (objEntries data) "detail" = some d ∧ truthy d = false) →
        (apiErrorOf res).message = stringify data)
    ∧ ((res.jsonBody = none ∨ res.jsonBody = some JsVal.null) →
        (apiErrorOf res).message = res.statusText) := by
  refine ⟨by simp [handleResponse, h], rfl, ?_, ?_, ?_⟩
  · intro data d hjson hnull hdet htru
    cases data <;>
      simp_all [apiErrorOf, errorMessage, jsOr, objEntries, objLookup]
  · intro data hjson hnull hdet
    rcases hdet with hdet | ⟨d, hdet, hfalsy⟩ <;>
      cases data <;>
        simp_all [apiErrorOf, errorMessage, jsOr, objEntries, objLookup, jsToString]
  · intro hbody
    rcases hbody with hbody | hbody <;> simp [apiErrorOf, errorMessage, hbody]

/-- Witness for C2 (amended) at the 404 response carrying
`detail: "Patient not found"`: the error has status 404 and that message. -/
theorem apiError_spec_witness :
    resOk detailRes = false
    ∧ (apiErrorOf detailRes).status = some 404
    ∧ (apiErrorOf detailRes).message = "Patient not found" := by
  refine ⟨rfl, (apiError_spec detailRes rfl).2.1, ?_⟩
  exact (apiError_spec detailRes rfl).2.2.1 (JsVal.obj [("detail", JsVal.str "Patient not found")])
    (JsVal.str "Patient not found") rfl (fun hc => JsVal.noConfusion hc) rfl rfl

/-- C5: for every success response the decoded result is: no value when the
status is 204, regardless of the declared content-type; the parsed JSON
body when the content-type contains `application/json` (and the body
parses); and the raw text body otherwise. -/
theorem decode_spec (res : Response) (hok : resOk res = true) :
    (res.status = 204 → handleResponse res = ApiOutcome.success DecodedBody.noContent)
    ∧ (res.status ≠ 204 → strIncludes (res.contentType.getD "") "application/json" = true →
        ∀ v, res.jsonBody = some v → handleResponse res = ApiOutcome.success (DecodedBody.json v))
    ∧ (res.status ≠ 204 → strIncludes (res.contentType.getD "") "application/json" = false →
        handleResponse res = ApiOutcome.success (DecodedBody.text res.bodyText)) := by
  refine ⟨?_, ?_, ?_⟩
  · intro h204
    simp [handleResponse, hok, h204]
  · intro h204 hct v hjson
    simp [handleResponse, hok, h204, hct, hjson]
  · intro h204 hct
    simp [handleResponse, hok, h204, hct]

/-- Witness for C5 at three concrete responses: a 204 with a JSON
content-type decodes to no value, a 200 JSON response decodes to its parsed
body, and a 200 text/plain response decodes to its raw text. -/
theorem decode_spec_witness :
    handleResponse noContentRes = ApiOutcome.success DecodedBody.noContent
    ∧ handleResponse jsonRes =
        ApiOutcome.success (DecodedBody.json (JsVal.arr [JsVal.num 1, JsVal.num 2]))
    ∧ handleResponse textRes = ApiOutcome.success (DecodedBody.text "pong") := by
  refine ⟨(decode_spec noContentRes rfl).1 rfl, ?_, ?_⟩
  · exact (decode_spec jsonRes rfl).2.1 (by decide) (by rfl) _ rfl
  · exact (decode_spec textRes rfl).2.2 (by decide) (by rfl)

theorem cacheFind_invalidate (f k : QueryKey) (qc : Cache) :
    cacheFind k (invalidateQueries f qc) =
      (cacheFind k qc).map
        (fun e => if keyMatches f k then { e with stale := true } else e) := by
  induction qc with
  | nil => rfl
  | cons p rest ih =>
    obtain ⟨k', e⟩ := p
    by_cases h : k' = k
    · subst h
      simp [invalidateQueries, cacheFind]
    · simp [invalidateQueries, cacheFind, h, ih]

/-- C3: when an adjust-inventory write succeeds, every cached read whose key
matches the inventory, inventory-summary or inventory-transactions filter
is marked stale, so a subsequent read of any such key returns data computed
at read time (after the adjustment), never a value computed before it; and
the invalidation runs only after a successful outcome — a failed write
leaves the cache untouched. -/
theorem adjustInventory_invalidates (qc : Cache) (b : DecodedBody) (k : QueryKey)
    (hmatch : keyMatches keys.inventory k = true
      ∨ keyMatches keys.inventorySummary k = true
      ∨ keyMatches keys.inventoryTransactions k = true) :
    (∀ e, cacheFind k (runMutation useAdjustInventory (ApiOutcome.success b) qc) = some e →
        e.stale = true)
    ∧ (∀ now,
        (readQuery (runMutation useAdjustInventory (ApiOutcome.success b) qc) k now).1 = now)
    ∧ (∀ err, runMutation useAdjustInventory (ApiOutcome.httpError err) qc = qc) := by
  have hrun : runMutation useAdjustInventory (ApiOutcome.success b) qc =
      invalidateQueries keys.inventoryTransactions
        (invalidateQueries keys.inventorySummary (invalidateQueries keys.inventory qc)) := rfl
  have hstale : ∀ e,
      cacheFind k (runMutation useAdjustInventory (ApiOutcome.success b) qc) = some e →
      e.stale = true := by
    intro e he
    rw [hrun, cacheFind_invalidate, cacheFind_invalidate, cacheFind_invalidate] at he
    rcases h0 : cacheFind k qc with _ | e0 <;> rw [h0] at he
    · simp at he
    · simp only [Option.map_some', Option.some.injEq] at he
      subst he
      by_cases c1 : keyMatches keys.inventory k <;>
        by_cases c2 : keyMatches keys.inventorySummary k <;>
          by_cases c3 : keyMatches keys.inventoryTransactions k <;>
            simp_all
  refine ⟨hstale, ?_, fun err => rfl⟩
  intro now
  rcases h' : cacheFind k (runMutation useAdjustInventory (ApiOutcome.success b) qc)
    with _ | e
  · simp [readQuery, h']
  · simp [readQuery, h', hstale e h']

/-- Witness for C3: on the demo cache of fresh entries, after a successful
adjustment every one of the three inventory reads performed at time 5
returns data computed at time 5, not the cached time-0 data. -/
theorem adjustInventory_invalidates_witness :
    (readQuery (runMutation useAdjustInventory
        (ApiOutcome.success (DecodedBody.json JsVal.null)) demoCache)
      keys.inventory 5).1 = 5
    ∧ (readQuery (runMutation useAdjustInventory
        (ApiOutcome.success (DecodedBody.json JsVal.null)) demoCache)
      keys.inventorySummary 5).1 = 5
    ∧ (readQuery (runMutation useAdjustInventory
        (ApiOutcome.success (DecodedBody.json JsVal.null)) demoCache)
      (keys.inventoryTransactions ++ [KeyPart.num 200]) 5).1 = 5 :=
  ⟨(adjustInventory_invalidates demoCache (DecodedBody.json JsVal.null)
      keys.inventory (Or.inl (by decide))).2.1 5,
   (adjustInventory_invalidates demoCache (DecodedBody.json JsVal.null)
      keys.inventorySummary (Or.inl (by decide))).2.1 5,
   (adjustInventory_invalidates demoCache (DecodedBody.json JsVal.null)
      (keys.inventoryTransactions ++ [KeyPart.num 200]) (Or.inl (by decide))).2.1 5⟩

/-- C7: mergeInventory yields the empty list for an absent drug list
regardless of the summary; otherwise it produces one entry per drug, where
a drug whose id the summary map hits is overlaid with that summary (summary
fields winning) and a drug the map misses passes through unchanged; and the
example of the claim evaluates as claimed. -/
theorem mergeInventory_spec :
    (∀ sm, mergeInventory none sm = [])
    ∧ (∀ ds sm, (mergeInventory (some ds) sm).length = ds.length)
    ∧ (∀ ds sm (i : Nat) d s, ds[i]? = some d →
        summaryMapGet (sm.getD []) d.id = some s →
        (mergeInventory (some ds) sm)[i]? = some (overlay d s))
    ∧ (∀ ds sm (i : Nat) d, ds[i]? = some d →
        summaryMapGet (sm.getD []) d.id = none →
        (mergeInventory (some ds) sm)[i]? = some (plainMerged d))
    ∧ mergeInventory (some [{ id := 1, name := "A" }, { id := 2, name := "B" }])
        (some [{ id := 1, pending_quantity := some 5 }]) =
      [{ id := 1, name := "A", pending_quantity := some 5 }, { id := 2, name := "B" }] := by
  refine ⟨fun sm => rfl, ?_, ?_, ?_, by decide⟩
  · intro ds sm
    simp [mergeInventory]
  · intro ds sm i d s hd hs
    simp only [mergeInventory, List.getElem?_map, hd, Option.map_some']
    simp [hs]
  · intro ds sm i d hd hs
    simp only [mergeInventory, List.getElem?_map, hd, Option.map_some']
    simp [hs]

/-- Witness for C7 on the example of the claim: drug 1 is overlaid with its
summary, drug 2 passes through, and an absent drug list yields `[]`. -/
theorem mergeInventory_spec_witness :
    mergeInventory none (some [{ id := 1, pending_quantity := some 5 }]) = []
    ∧ (mergeInventory (some [{ id := 1, name := "A" }, { id := 2, name := "B" }])
        (some [{ id := 1, pending_quantity := some 5 }]))[0]? =
      some (overlay { id := 1, name := "A" } { id := 1, pending_quantity := some 5 })
    ∧ (mergeInventory (some [{ id := 1, name := "A" }, { id := 2, name := "B" }])
        (some [{ id := 1, pending_quantity := some 5 }]))[1]? =
      some (plainMerged { id := 2, name := "B" }) :=
  ⟨mergeInventory_spec.1 (some [{ id := 1, pending_quantity := some 5 }]),
   mergeInventory_spec.2.2.1 [{ id := 1, name := "A" }, { id := 2, name := "B" }]
     (some [{ id := 1, pending_quantity := some 5 }]) 0 { id := 1, name := "A" }
     { id := 1, pending_quantity := some 5 } rfl rfl,
   mergeInventory_spec.2.2.2.1 [{ id := 1, name := "A" }, { id := 2, name := "B" }]
     (some [{ id := 1, pending_quantity := some 5 }]) 1 { id := 2, name := "B" } rfl rfl⟩

/-- C8: the patient-scoped delivery read resolves to the immediate empty
list with the query disabled when no patient id is supplied, and its query
function is a network request only when a patient id is supplied. -/
theorem patientDeliveries_spec :
    (usePatientDeliveries none).queryFn = Eff.resolvedEmpty
    ∧ (usePatientDeliveries none).enabled = false
    ∧ (∀ (patientId : Option Int) (p : String) (o : List (String × JsVal)),
        (usePatientDeliveries patientId).queryFn = Eff.api p o →
        patientId.isSome = true) := by
  refine ⟨rfl, rfl, ?_⟩
  intro patientId p o h
  cases patientId with
  | none => exact Eff.noConfusion h
  | some n => rfl

/-- Witness for C8: the absent id yields the immediate empty read, and the
concrete id 7 (whose query function is the network request to
`/deliveries/patient/7`) is indeed a supplied id. -/
theorem patientDeliveries_spec_witness :
    (usePatientDeliveries none).queryFn = Eff.resolvedEmpty
    ∧ (some 7 : Option Int).isSome = true :=
  ⟨patientDeliveries_spec.1,
   patientDeliveries_spec.2.2 (some 7) "/deliveries/patient/7" [] (by rfl)⟩

/-- C9: every write hook (add patient, add drug, add delivery, update
delivery status, adjust inventory) is a single bare request-executor call —
never routed through the retry wrapper, so its failure propagates — while
among reads exactly patients, drugs, deliveries and inventory-drugs use the
retry wrapper, and stats, inventory-summary, inventory-transactions and
patient-scoped-deliveries do not. -/
theorem retry_usage_spec :
    ((∀ d : JsVal, (useAddPatient.mutationFn d).isSingleApiCall = true
        ∧ (useAddPatient.mutationFn d).usesRetry = false)
      ∧ (∀ d : JsVal, (useAddDrug.mutationFn d).isSingleApiCall = true
        ∧ (useAddDrug.mutationFn d).usesRetry = false)
      ∧ (∀ d : JsVal, (useAddDelivery.mutationFn d).isSingleApiCall = true
        ∧ (useAddDelivery.mutationFn d).usesRetry = false)
      ∧ (∀ p : Int × String, (useUpdateDeliveryStatus.mutationFn p).isSingleApiCall = true
        ∧ (useUpdateDeliveryStatus.mutationFn p).usesRetry = false)
      ∧ (∀ a : AdjustArgs, (useAdjustInventory.mutationFn a).isSingleApiCall = true
        ∧ (useAdjustInventory.mutationFn a).usesRetry = false))
    ∧ (usePatients.queryFn.usesRetry = true
      ∧ useDrugs.queryFn.usesRetry = true
      ∧ useDeliveries.queryFn.usesRetry = true
      ∧ useInventoryDrugs.queryFn.usesRetry = true)
    ∧ (useStats.queryFn.usesRetry = false
      ∧ useStats.queryFn.isSingleApiCall = true
      ∧ useInventorySummary.queryFn.usesRetry = false
      ∧ useInventorySummary.queryFn.isSingleApiCall = true
      ∧ (∀ limit : Int, (useInventoryTransactions limit).queryFn.usesRetry = false
        ∧ (useInventoryTransactions limit).queryFn.isSingleApiCall = true)
      ∧ (∀ pid : Option Int, (usePatientDeliveries pid).queryFn.usesRetry = false)) := by
  refine ⟨⟨fun d => ⟨rfl, rfl⟩, fun d => ⟨rfl, rfl⟩, fun d => ⟨rfl, rfl⟩,
    fun p => ⟨rfl, rfl⟩, fun a => ⟨rfl, rfl⟩⟩,
    ⟨rfl, rfl, rfl, rfl⟩,
    ⟨rfl, rfl, rfl, rfl, fun limit => ⟨rfl, rfl⟩, ?_⟩⟩
  intro pid
  cases pid with
  | none => rfl
  | some n =>
    show (usePatientDeliveries_queryFn (some n)).usesRetry = false
    unfold usePatientDeliveries_queryFn
    split <;> rfl

end DrugDelivery
